import Mathlib

/-!
Verification of the AI Request Gateway of the cubical-ally repository:
rate limiting (`backend/ai_services/ratelimit.py`), response extraction
(`backend/ai_services/client.py`), guardrail filtering and usage logging
(`backend/ai_services/services.py`, `backend/ai_services/models.py`).

Python `str` values are modelled as `List Char` (a Python string is a
sequence of code points); Python slicing `s[a:]`, `s[:b]` become
`List.drop` / `List.take`.
-/

namespace CubicleAlly

/-! ## ratelimit.py -/

/-- A rate-limit configuration entry: requests per time window in seconds. -/
structure RLConfig where
  limit : Nat
  window : Nat
deriving DecidableEq

/-- `RATE_LIMITS` table from `ratelimit.py`. -/
def RATE_LIMITS : List (List Char × RLConfig) :=
  [("ai_interpret".toList, ⟨10, 60⟩),
   ("ai_enhance".toList, ⟨20, 60⟩),
   ("ai_coaching".toList, ⟨15, 60⟩),
   ("ai_document".toList, ⟨5, 300⟩),
   ("ai_paths".toList, ⟨10, 60⟩),
   ("ai_default".toList, ⟨30, 60⟩)]

/-- `PRO_MULTIPLIER` from `ratelimit.py`. -/
def PRO_MULTIPLIER : Nat := 3

/-- `RATE_LIMITS.get(endpoint_type, RATE_LIMITS['ai_default'])`. -/
def ratelimitConfig (endpoint_type : List Char) : RLConfig :=
  (RATE_LIMITS.lookup endpoint_type).getD
    ((RATE_LIMITS.lookup "ai_default".toList).getD ⟨0, 0⟩)

/-- Effective limit after the pro-tier multiplier (`limit *= PRO_MULTIPLIER`). -/
def effectiveLimit (base : Nat) (isPro : Bool) : Nat :=
  if isPro then base * PRO_MULTIPLIER else base

/-- Counter key for an anonymous caller:
`f"ratelimit:{endpoint_type}:ip:{ip}"`. -/
def rateLimitKeyIp (endpoint_type ip : List Char) : List Char :=
  "ratelimit:".toList ++ endpoint_type ++ ":ip:".toList ++ ip

/-- Counter key for an authenticated caller
(`get_rate_limit_key`, the decorator path with `user.id`). -/
def rateLimitKeyUser (endpoint_type : List Char) (userId : Nat) : List Char :=
  "ratelimit:".toList ++ endpoint_type ++ ":user:".toList ++ (toString userId).toList

/-- One sequential execution of the body of `check_rate_limit` for a fixed
key inside one window: `current` is the value `cache.get(key, 0)` observes,
`ttl` is what `cache.ttl(key)` would report at denial time (`none` when the
cache has no `ttl` attribute or reports `None`; Python's `ttl or window`
also replaces a zero TTL).  Returns the `(allowed, remaining, reset_time)`
triple and the stored counter after the call. -/
def checkRateLimitStep (limit window : Nat) (ttl : Option Nat) (current : Nat) :
    (Bool × Nat × Nat) × Nat :=
  if limit ≤ current then
    ((false, 0, match ttl with
      | none => window
      | some t => if t = 0 then window else t), current)
  else
    ((true, limit - current - 1, window),
     if current = 0 then 1 else current + 1)

/-- Stored counter value after `n` sequential calls in one window,
starting from an empty cache. -/
def seqCount (limit window : Nat) : Nat → Nat
  | 0 => 0
  | n + 1 => (checkRateLimitStep limit window none (seqCount limit window n)).2

/-- Result of the `n`-th sequential call (`n ≥ 1`) in one window. -/
def nthCall (limit window : Nat) (ttl : Option Nat) (n : Nat) : Bool × Nat × Nat :=
  (checkRateLimitStep limit window ttl (seqCount limit window (n - 1))).1

lemma checkRateLimitStep_snd_allowed (limit window : Nat) (current : Nat)
    (h : current < limit) :
    (checkRateLimitStep limit window none current).2 = current + 1 := by
  unfold checkRateLimitStep
  have hlt : ¬ limit ≤ current := by omega
  rcases Nat.eq_zero_or_pos current with h0 | h0
  · have hl : limit ≠ 0 := by omega
    simp [hlt, h0, hl]
  · have h0' : current ≠ 0 := by omega
    simp [hlt, h0']

lemma seqCount_eq_min (limit window : Nat) (n : Nat) :
    seqCount limit window n = min n limit := by
  induction n with
  | zero => simp [seqCount]
  | succ n ih =>
    unfold seqCount
    rw [ih]
    by_cases h : limit ≤ min n limit
    · unfold checkRateLimitStep
      simp [h]
      omega
    · rw [checkRateLimitStep_snd_allowed limit window _ (by omega)]
      omega

/-! ## Concurrent interleavings of `check_rate_limit` (one key, one window)

Each caller executes two atomic actions against the shared cache value:
`read` (the `cache.get(key, 0)` line) and `write` (the
`cache.set(key, 1, window)` / `cache.incr(key)` lines, guarded by the
caller's own earlier observation).  A schedule is a list of such actions. -/

inductive RLAct where
  | read (caller : Nat)
  | write (caller : Nat)
deriving DecidableEq

/-- Shared state of one counter key plus each caller's private observation
(`current` in the Python function): `store` is the cached count (0 when the
key is absent), `obs c` is what caller `c` has read, if it has read. -/
structure RLState where
  store : Nat
  obs : List (Option Nat)
deriving DecidableEq

/-- One atomic action.  A `write` by a caller that observed
`current ≥ limit` does nothing (the denial branch returns without
touching the cache); a caller that observed `0` runs
`cache.set(key, 1, window)`, overwriting the stored count with `1`;
otherwise `cache.incr(key)` atomically increments the stored count. -/
def rlStep (limit : Nat) (s : RLState) : RLAct → RLState
  | .read c => { s with obs := s.obs.set c (some s.store) }
  | .write c =>
    match s.obs.getD c none with
    | none => s
    | some current =>
      if limit ≤ current then s
      else if current = 0 then { s with store := 1 }
      else { s with store := s.store + 1 }

/-- Run a schedule from an empty window with `k` callers. -/
def rlRun (limit k : Nat) (sched : List RLAct) : RLState :=
  sched.foldl (rlStep limit) ⟨0, List.replicate k none⟩

/-- A caller is admitted exactly when its observed count is below the
limit (the function then returns `allowed = true`). -/
def admittedCount (limit : Nat) (s : RLState) : Nat :=
  (s.obs.filterMap id).countP (· < limit)

/-! ## models.py: `AIInteractionLog.hash_input`

`hashlib.sha256(input_text.encode()).hexdigest()`: UTF-8 encode the text,
hash with SHA-256, render as lowercase hex.  Bytes and 32-bit words are
`Nat` with explicit reduction modulo `2^8` / `2^32`. -/

def M32 : Nat := 4294967296

def add32 (a b : Nat) : Nat := (a + b) % M32

def rotr32 (n x : Nat) : Nat := ((x >>> n) ||| (x <<< (32 - n))) % M32

def bsig0 (x : Nat) : Nat := rotr32 2 x ^^^ rotr32 13 x ^^^ rotr32 22 x

def bsig1 (x : Nat) : Nat := rotr32 6 x ^^^ rotr32 11 x ^^^ rotr32 25 x

def ssig0 (x : Nat) : Nat := rotr32 7 x ^^^ rotr32 18 x ^^^ (x >>> 3)

def ssig1 (x : Nat) : Nat := rotr32 17 x ^^^ rotr32 19 x ^^^ (x >>> 10)

def chf (x y z : Nat) : Nat := (x &&& y) ^^^ ((x ^^^ (M32 - 1)) &&& z)

def majf (x y z : Nat) : Nat := (x &&& y) ^^^ (x &&& z) ^^^ (y &&& z)

/-- The eight 32-bit words of a SHA-256 chaining state. -/
structure Hash8 where
  h0 : Nat
  h1 : Nat
  h2 : Nat
  h3 : Nat
  h4 : Nat
  h5 : Nat
  h6 : Nat
  h7 : Nat
deriving DecidableEq

def SHA256_H0 : Hash8 :=
  ⟨1779033703, 3144134277, 1013904242, 2773480762,
   1359893119, 2600822924, 528734635, 1541459225⟩

def SHA256_K : List Nat :=
  [1116352408, 1899447441, 3049323471, 3921009573, 961987163,
   1508970993, 2453635748, 2870763221, 3624381080, 310598401,
   607225278, 1426881987, 1925078388, 2162078206, 2614888103,
   3248222580, 3835390401, 4022224774, 264347078, 604807628,
   770255983, 1249150122, 1555081692, 1996064986, 2554220882,
   2821834349, 2952996808, 3210313671, 3336571891, 3584528711,
   113926993, 338241895, 666307205, 773529912, 1294757372,
   1396182291, 1695183700, 1986661051, 2177026350, 2456956037,
   2730485921, 2820302411, 3259730800, 3345764771, 3516065817,
   3600352804, 4094571909, 275423344, 430227734, 506948616,
   659060556, 883997877, 958139571, 1322822218, 1537002063,
   1747873779, 1955562222, 2024104815, 2227730452, 2361852424,
   2428436474, 2756734187, 3204031479, 3329325298]

/-- Big-endian bytes of `v`, `n` bytes wide. -/
def toBytesBE (n v : Nat) : List Nat :=
  (List.range n).map (fun i => (v >>> (8 * (n - 1 - i))) &&& 255)

/-- SHA-256 padding: `0x80`, zeros to 56 mod 64, 64-bit big-endian bit length. -/
def sha256Pad (msg : List Nat) : List Nat :=
  msg ++ 0x80 :: List.replicate ((119 - (msg.length % 64)) % 64) 0
      ++ toBytesBE 8 (msg.length * 8)

/-- Big-endian 4-byte groups to 32-bit words. -/
def bytesToWords : List Nat → List Nat
  | b0 :: b1 :: b2 :: b3 :: rest =>
    (((b0 * 256 + b1) * 256 + b2) * 256 + b3) :: bytesToWords rest
  | _ => []

/-- Extend the (reversed) message schedule by `n` further words. -/
def scheduleRev (rev : List Nat) : Nat → List Nat
  | 0 => rev
  | n + 1 =>
    scheduleRev
      (add32 (add32 (ssig1 (rev.getD 1 0)) (rev.getD 6 0))
             (add32 (ssig0 (rev.getD 14 0)) (rev.getD 15 0)) :: rev) n

/-- The 64-word message schedule from the 16 block words. -/
def messageSchedule (w16 : List Nat) : List Nat :=
  (scheduleRev w16.reverse 48).reverse

/-- One SHA-256 round. -/
def sha256Round (st : Hash8) (kw : Nat × Nat) : Hash8 :=
  let t1 := add32 st.h7 (add32 (bsig1 st.h4)
    (add32 (chf st.h4 st.h5 st.h6) (add32 kw.1 kw.2)))
  let t2 := add32 (bsig0 st.h0) (majf st.h0 st.h1 st.h2)
  ⟨add32 t1 t2, st.h0, st.h1, st.h2, add32 st.h3 t1, st.h4, st.h5, st.h6⟩

/-- Compress one 64-byte block into the chaining state. -/
def sha256Compress (h : Hash8) (block : List Nat) : Hash8 :=
  let st := (SHA256_K.zip (messageSchedule (bytesToWords block))).foldl sha256Round h
  ⟨add32 h.h0 st.h0, add32 h.h1 st.h1, add32 h.h2 st.h2, add32 h.h3 st.h3,
   add32 h.h4 st.h4, add32 h.h5 st.h5, add32 h.h6 st.h6, add32 h.h7 st.h7⟩

/-- Fold the compression function over consecutive 64-byte blocks. -/
def sha256Blocks (h : Hash8) : List Nat → Hash8
  | [] => h
  | b :: bs => sha256Blocks (sha256Compress h ((b :: bs).take 64)) (bs.drop 63)
termination_by bs => bs.length
decreasing_by simp [List.length_drop]; omega

def sha256 (msg : List Nat) : Hash8 := sha256Blocks SHA256_H0 (sha256Pad msg)

/-- Lowercase hex digit. -/
def hexDigitChar (n : Nat) : Char :=
  if n < 10 then Char.ofNat (48 + n) else Char.ofNat (87 + n)

/-- Eight lowercase hex digits of a 32-bit word, most significant first. -/
def hex32 (v : Nat) : List Char :=
  (List.range 8).map (fun i => hexDigitChar ((v >>> (4 * (7 - i))) &&& 15))

/-- `hexdigest()` of the SHA-256 of a byte sequence. -/
def sha256Hexdigest (msg : List Nat) : List Char :=
  hex32 (sha256 msg).h0 ++ hex32 (sha256 msg).h1 ++ hex32 (sha256 msg).h2 ++
  hex32 (sha256 msg).h3 ++ hex32 (sha256 msg).h4 ++ hex32 (sha256 msg).h5 ++
  hex32 (sha256 msg).h6 ++ hex32 (sha256 msg).h7

/-- UTF-8 encoding of one code point (Python `str.encode()` default). -/
def utf8EncodeChar (c : Char) : List Nat :=
  let n := c.toNat
  if n < 128 then [n]
  else if n < 2048 then [192 ||| (n >>> 6), 128 ||| (n &&& 63)]
  else if n < 65536 then
    [224 ||| (n >>> 12), 128 ||| ((n >>> 6) &&& 63), 128 ||| (n &&& 63)]
  else
    [240 ||| (n >>> 18), 128 ||| ((n >>> 12) &&& 63),
     128 ||| ((n >>> 6) &&& 63), 128 ||| (n &&& 63)]

def utf8Encode (s : List Char) : List Nat := (s.map utf8EncodeChar).flatten

/-- `AIInteractionLog.hash_input`:
`hashlib.sha256(input_text.encode()).hexdigest()`. -/
def hash_input (input_text : List Char) : List Char :=
  sha256Hexdigest (utf8Encode input_text)

/-- The persisted fields of an `AIInteractionLog` row that
`log_interaction` fills (`models.py`). -/
structure AIInteractionLog where
  user : Option Nat
  interaction_type : List Char
  input_hash : List Char
  tokens_input : Nat
  tokens_output : Nat
  model_used : List Char
deriving DecidableEq

/-- `log_interaction` from `services.py`: the row it creates. -/
def log_interaction (user : Option Nat) (interaction_type : List Char)
    (input_text : List Char) (tokens_input tokens_output : Nat)
    (model : List Char) : AIInteractionLog :=
  { user := user
    interaction_type := interaction_type
    input_hash := hash_input input_text
    tokens_input := tokens_input
    tokens_output := tokens_output
    model_used := model }

/-- The usage row `suggest_career_paths` logs: it passes `prompt[:500]`
as the input text (`services.py`, truncate-for-logging call). -/
def suggest_career_paths_log (user : Option Nat) (prompt : List Char)
    (tokens_input tokens_output : Nat) (model : List Char) : AIInteractionLog :=
  log_interaction user "career_paths".toList (prompt.take 500)
    tokens_input tokens_output model

/-! ## client.py: `ClaudeClient.chat_json`

The response content is `.strip()`-ed, up to one leading ```` ```json ````
or ```` ``` ```` fence and one trailing ```` ``` ```` fence are removed,
and the rest is `.strip()`-ed again and fed to `json.loads`.  The JSON
grammar below mirrors `json.loads` in its default strict mode; numbers
keep their raw lexeme (their numeric interpretation is never needed). -/

def lbrace : Char := Char.ofNat 123

def rbrace : Char := Char.ofNat 125

/-- A parsed JSON document. -/
inductive Json where
  | null
  | bool (b : Bool)
  | num (raw : List Char)
  | str (s : List Char)
  | arr (elems : List Json)
  | obj (members : List (List Char × Json))

/-- Python `str.strip()` with the claims' whitespace. -/
def pyStrip (s : List Char) : List Char :=
  ((s.dropWhile Char.isWhitespace).reverse.dropWhile Char.isWhitespace).reverse

/-- JSON insignificant whitespace (space, tab, newline, carriage return). -/
def isJsonWs (c : Char) : Bool :=
  c = ' ' || c = '\t' || c = '\n' || c = '\r'

def skipWs (s : List Char) : List Char := s.dropWhile isJsonWs

def hexVal (c : Char) : Option Nat :=
  if '0' ≤ c ∧ c ≤ '9' then some (c.toNat - 48)
  else if 'a' ≤ c ∧ c ≤ 'f' then some (c.toNat - 87)
  else if 'A' ≤ c ∧ c ≤ 'F' then some (c.toNat - 55)
  else none

def parseHex4 (s : List Char) : Option (Nat × List Char) :=
  match s with
  | c0 :: c1 :: c2 :: c3 :: rest =>
    match hexVal c0, hexVal c1, hexVal c2, hexVal c3 with
    | some v0, some v1, some v2, some v3 =>
      some (((v0 * 16 + v1) * 16 + v2) * 16 + v3, rest)
    | _, _, _, _ => none
  | _ => none

/-- Single-character escape table of JSON strings. -/
def escChar (c : Char) : Option Char :=
  if c = '"' then some '"'
  else if c = '\\' then some '\\'
  else if c = '/' then some '/'
  else if c = 'b' then some (Char.ofNat 8)
  else if c = 'f' then some (Char.ofNat 12)
  else if c = 'n' then some '\n'
  else if c = 'r' then some '\r'
  else if c = 't' then some '\t'
  else none

/-- Body of a JSON string after the opening quote; strict mode rejects
unescaped control characters.  (`Char.ofNat` is the scalar value of a
`\uXXXX` escape; surrogate halves fall to `Char.ofNat`'s default.) -/
def parseJStr : Nat → List Char → Option (List Char × List Char)
  | 0, _ => none
  | _, [] => none
  | fuel + 1, c :: rest =>
    if c = '"' then some ([], rest)
    else if c = '\\' then
      match rest with
      | [] => none
      | e :: rest2 =>
        if e = 'u' then
          match parseHex4 rest2 with
          | some (n, rest3) =>
            (parseJStr fuel rest3).map (fun p => (Char.ofNat n :: p.1, p.2))
          | none => none
        else
          match escChar e with
          | some ch => (parseJStr fuel rest2).map (fun p => (ch :: p.1, p.2))
          | none => none
    else if c.toNat < 32 then none
    else (parseJStr fuel rest).map (fun p => (c :: p.1, p.2))

/-- Optional fraction part `.digits`. -/
def parseFrac (s : List Char) : Option (List Char × List Char) :=
  match s with
  | '.' :: r =>
    let ds := r.takeWhile Char.isDigit
    if ds = [] then none else some ('.' :: ds, r.dropWhile Char.isDigit)
  | _ => some ([], s)

/-- Optional exponent part `e[+-]digits`. -/
def parseExp (s : List Char) : Option (List Char × List Char) :=
  match s with
  | e :: r =>
    if e = 'e' ∨ e = 'E' then
      let (sgn, r1) := match r with
        | '+' :: r' => (['+'], r')
        | '-' :: r' => (['-'], r')
        | _ => (([] : List Char), r)
      let ds := r1.takeWhile Char.isDigit
      if ds = [] then none
      else some (e :: sgn ++ ds, r1.dropWhile Char.isDigit)
    else some ([], e :: r)
  | [] => some ([], [])

/-- JSON number lexeme: optional minus, `0` or nonzero-led digits,
optional fraction and exponent. -/
def parseJNum (s : List Char) : Option (List Char × List Char) :=
  let (sgn, s1) := match s with
    | '-' :: r => (['-'], r)
    | _ => (([] : List Char), s)
  match s1 with
  | [] => none
  | c :: r =>
    let intPart : Option (List Char × List Char) :=
      if c = '0' then some (['0'], r)
      else if c.isDigit then some (c :: r.takeWhile Char.isDigit, r.dropWhile Char.isDigit)
      else none
    match intPart with
    | none => none
    | some (ip, r1) =>
      match parseFrac r1 with
      | none => none
      | some (fp, r2) =>
        match parseExp r2 with
        | none => none
        | some (ep, r3) => some (sgn ++ ip ++ fp ++ ep, r3)

mutual

/-- One JSON value, leading whitespace already consumed. -/
def parseValue : Nat → List Char → Option (Json × List Char)
  | 0, _ => none
  | fuel + 1, s =>
    match s with
    | [] => none
    | c :: rest =>
      if c = lbrace then
        let s1 := skipWs rest
        match s1 with
        | d :: r1 => if d = rbrace then some (.obj [], r1)
                     else (parseMembers fuel s1).map (fun p => (.obj p.1, p.2))
        | [] => none
      else if c = '[' then
        let s1 := skipWs rest
        match s1 with
        | d :: r1 => if d = ']' then some (.arr [], r1)
                     else (parseElems fuel s1).map (fun p => (.arr p.1, p.2))
        | [] => none
      else if c = '"' then
        (parseJStr (rest.length + 1) rest).map (fun p => (.str p.1, p.2))
      else if "true".toList.isPrefixOf s then some (.bool true, s.drop 4)
      else if "false".toList.isPrefixOf s then some (.bool false, s.drop 5)
      else if "null".toList.isPrefixOf s then some (.null, s.drop 4)
      else (parseJNum s).map (fun p => (.num p.1, p.2))

/-- Nonempty comma-separated element list of an array, up to and
including the closing bracket. -/
def parseElems : Nat → List Char → Option (List Json × List Char)
  | 0, _ => none
  | fuel + 1, s =>
    match parseValue fuel (skipWs s) with
    | none => none
    | some (v, r) =>
      match skipWs r with
      | ',' :: r2 => (parseElems fuel r2).map (fun p => (v :: p.1, p.2))
      | d :: r2 => if d = ']' then some ([v], r2) else none
      | [] => none

/-- Nonempty member list of an object, up to and including the closing
brace; each member is `"key" : value`. -/
def parseMembers : Nat → List Char → Option (List (List Char × Json) × List Char)
  | 0, _ => none
  | fuel + 1, s =>
    match s with
    | '"' :: r =>
      match parseJStr (r.length + 1) r with
      | none => none
      | some (key, r1) =>
        match skipWs r1 with
        | ':' :: r2 =>
          match parseValue fuel (skipWs r2) with
          | none => none
          | some (v, r3) =>
            match skipWs r3 with
            | d :: r4 =>
              if d = ',' then
                (parseMembers fuel (skipWs r4)).map (fun p => ((key, v) :: p.1, p.2))
              else if d = rbrace then some ([(key, v)], r4)
              else none
            | [] => none
        | _ => none
    | _ => none

end

/-- `json.loads`: one document, surrounding whitespace allowed, trailing
data rejected.  `none` models `json.JSONDecodeError`. -/
def jsonLoads (s : List Char) : Option Json :=
  match parseValue (2 * s.length + 2) (skipWs s) with
  | some (v, rest) => if skipWs rest = [] then some v else none
  | none => none

/-- The fence-stripping lines of `chat_json`: drop a leading
```` ```json ```` (7 characters), then a leading ```` ``` ````, then a
trailing ```` ``` ````. -/
def stripFences (content : List Char) : List Char :=
  let c1 := if "```json".toList.isPrefixOf content then content.drop 7 else content
  let c2 := if "```".toList.isPrefixOf c1 then c1.drop 3 else c1
  if "```".toList.isSuffixOf c2 then c2.take (c2.length - 3) else c2

/-- The extraction performed by `chat_json` on the raw response content:
strip, unfence, strip, parse.  On `json.JSONDecodeError` the function
logs `content[:500]` (the unfenced text) and raises; the error value
carries that logged snippet. -/
def chatJsonExtract (raw : List Char) : Except (List Char) Json :=
  let content := stripFences (pyStrip raw)
  match jsonLoads (pyStrip content) with
  | some data => .ok data
  | none => .error (content.take 500)

/-! ## services.py: guardrail filtering and orchestration -/

/-- Python dict `get` on a parsed JSON object (with duplicate keys the
last occurrence wins, as in a dict built by sequential assignment). -/
def pyDictGet (kvs : List (List Char × Json)) (k : List Char) : Option Json :=
  kvs.reverse.lookup k

/-- Python dict assignment `d[k] = v`: replace in place, append if new. -/
def dictSet : List (List Char × Json) → List Char → Json → List (List Char × Json)
  | [], k, v => [(k, v)]
  | (k', v') :: rest, k, v =>
    if k' = k then (k, v) :: rest else (k', v') :: dictSet rest k v

/-- The claimed reference identifier of a candidate entry: the entry's
value under `key` when the entry is an object and the value a string. -/
def entryCode (key : List Char) (entry : Json) : Option (List Char) :=
  match entry with
  | .obj kvs =>
    match pyDictGet kvs key with
    | some (.str c) => some c
    | _ => none
  | _ => none

/-- `entry.get(key) in valid_codes`: membership of the claimed identifier
in the whitelist (false when the identifier is absent or not a string —
the whitelist holds strings only). -/
def codeAllowed (validCodes : List (List Char)) (key : List Char) (entry : Json) : Bool :=
  match entryCode key entry with
  | some c => validCodes.contains c
  | none => false

/-- The guardrail filter of `interpret_job_title`:
`if 'matches' in data and data['matches']:` then
`data['matches'] = [m for m in data['matches'] if m.get('code') in valid_codes]`
(the truthiness test makes the assignment fire only for a nonempty list). -/
def interpretFilterStep (validCodes : List (List Char)) (data : Json) : Json :=
  match data with
  | .obj kvs =>
    match pyDictGet kvs "matches".toList with
    | some (.arr (m :: ms)) =>
      .obj (dictSet kvs "matches".toList
        (.arr ((m :: ms).filter (codeAllowed validCodes "code".toList))))
    | _ => data
  | _ => data

/-- The guardrail filter of `suggest_career_paths`: `if 'paths' in data:`
then `data['paths'] = [p for p in data['paths'] if p.get('occupation_code') in valid_codes]`.
(The subsequent enrichment loop only adds an `occupation` field to
surviving entries; it neither adds nor removes entries.) -/
def careerFilterStep (validCodes : List (List Char)) (data : Json) : Json :=
  match data with
  | .obj kvs =>
    match pyDictGet kvs "paths".toList with
    | some (.arr ps) =>
      .obj (dictSet kvs "paths".toList
        (.arr (ps.filter (codeAllowed validCodes "occupation_code".toList))))
    | _ => data
  | _ => data

/-- Outcome-level model of `interpret_job_title`'s `try` block: the model
call either raises or returns `(data, tokens)`; `log_interaction` (run
only when `user` is truthy) either succeeds or raises on the database
write; the `except Exception` clause logs and re-raises, so any raised
exception reaches the caller. -/
def interpret_job_title_run (chatOutcome : Except (List Char) (Json × Nat × Nat))
    (logOutcome : Except (List Char) Unit) (user : Option Nat)
    (validCodes : List (List Char)) : Except (List Char) Json :=
  match chatOutcome with
  | .error e => .error e
  | .ok (data, _, _) =>
    match user with
    | none => .ok (interpretFilterStep validCodes data)
    | some _ =>
      match logOutcome with
      | .error e => .error e
      | .ok _ => .ok (interpretFilterStep validCodes data)

/-- Pipeline events of one gateway invocation. -/
inductive GEvent where
  | limitCheck
  | modelCall
  | record
  | guardrail
deriving DecidableEq

/-- Events of `interpret_job_title`'s body in execution order: the
`claude_client.chat_json` call; then, if it returned and `user` is
truthy, the `log_interaction` call; then the guardrail filter. -/
def viewEvents (user : Option Nat) (chatOk : Bool) : List GEvent :=
  .modelCall ::
    (if chatOk then
      (match user with
       | some _ => [.record, .guardrail]
       | none => [.guardrail])
     else [])

/-- The `ai_rate_limit` decorator around such a view: run
`check_rate_limit`; when it denies, return the 429 response without
invoking the view function.  Returns the admit decision and the trace. -/
def gatewayRun (limit window current : Nat) (ttl : Option Nat)
    (user : Option Nat) (chatOk : Bool) : Bool × List GEvent :=
  let res := (checkRateLimitStep limit window ttl current).1
  if res.1 then (true, .limitCheck :: viewEvents user chatOk)
  else (false, [.limitCheck])

/-- The spec's guardrail example: entries claiming `X1`, `X2`, `X3`. -/
def exEntryX1 : Json := .obj [("code".toList, .str "X1".toList)]

def exEntryX2 : Json := .obj [("code".toList, .str "X2".toList)]

def exEntryX3 : Json := .obj [("code".toList, .str "X3".toList)]

/-- The spec's guardrail example whitelist `{X1, X3}`. -/
def exWhitelist : List (List Char) := ["X1".toList, "X3".toList]

/-! ## Claim theorems -/

/-- C1: sequential rate limiting within one window — the `n`-th call to
`check_rate_limit` is admitted iff `n ≤ effective_limit`; an admitted
call returns `remaining = limit − count − 1` (count before the call is
`n − 1`, so the value is `limit − n`, and the first call returns
`limit − 1`) and `reset_time = window`; once the count reaches the limit
the call returns `allowed = false`, `remaining = 0`, and `reset` equal to
the counter's remaining TTL, falling back to the window length when the
TTL is unavailable. -/
theorem check_rate_limit_sequential (limit window : Nat) (ttl : Option Nat)
    (n : Nat) (hn : 1 ≤ n) :
    ((nthCall limit window ttl n).1 = true ↔ n ≤ limit)
    ∧ (n ≤ limit → nthCall limit window ttl n = (true, limit - n, window))
    ∧ (limit < n →
        (nthCall limit window ttl n).1 = false
        ∧ (nthCall limit window ttl n).2.1 = 0
        ∧ (ttl = none → (nthCall limit window ttl n).2.2 = window)
        ∧ (∀ t, ttl = some t → 0 < t → (nthCall limit window ttl n).2.2 = t)) := by
  have hc : seqCount limit window (n - 1) = min (n - 1) limit :=
    seqCount_eq_min limit window (n - 1)
  by_cases h : n ≤ limit
  · have hlt : ¬ limit ≤ min (n - 1) limit := by omega
    have hres : nthCall limit window ttl n = (true, limit - n, window) := by
      unfold nthCall checkRateLimitStep
      rw [hc]
      simp only [hlt, if_false]
      have : limit - min (n - 1) limit - 1 = limit - n := by omega
      rw [this]
    refine ⟨?_, fun _ => hres, fun hgt => absurd h (by omega)⟩
    simp [hres, h]
  · have hge : limit ≤ min (n - 1) limit := by omega
    have hres : (checkRateLimitStep limit window ttl (seqCount limit window (n - 1))).1
        = (false, 0, match ttl with
            | none => window
            | some t => if t = 0 then window else t) := by
      unfold checkRateLimitStep
      rw [hc]
      simp [hge]
    refine ⟨?_, fun hle => absurd hle h, fun _ => ?_⟩
    · unfold nthCall
      rw [hres]
      simpa using h
    · unfold nthCall
      rw [hres]
      refine ⟨rfl, rfl, ?_, ?_⟩
      · rintro rfl; rfl
      · rintro t rfl ht
        simp [Nat.pos_iff_ne_zero.mp ht]

/-- Witness for C1 at `limit = 3`, `window = 60`, `ttl = 10 s`: the second
call is admitted with `remaining = 1`, the fourth call is denied. -/
theorem check_rate_limit_sequential_witness :
    nthCall 3 60 (some 10) 2 = (true, 1, 60)
    ∧ (nthCall 3 60 (some 10) 4).1 = false
    ∧ (nthCall 3 60 (some 10) 4).2.2 = 10 := by
  refine ⟨?_, ?_, ?_⟩
  · have h := (check_rate_limit_sequential 3 60 (some 10) 2 (by decide)).2.1 (by decide)
    simpa using h
  · exact ((check_rate_limit_sequential 3 60 (some 10) 4 (by decide)).2.2 (by decide)).1
  · exact ((check_rate_limit_sequential 3 60 (some 10) 4 (by decide)).2.2
      (by decide)).2.2.2 10 rfl (by decide)

/-- C2: the claim that no interleaving of concurrent callers admits more
than `effective_limit` calls per window is false of the source: the body
of `check_rate_limit` is a non-atomic read-then-write, so with
`limit = 1` two callers that both read the empty counter before either
writes are both admitted — 2 admits in one window, and the stored count
afterwards is 1. -/
theorem check_rate_limit_race_admits_over_limit :
    admittedCount 1 (rlRun 1 2 [.read 0, .read 1, .write 0, .write 1]) = 2
    ∧ 1 < 2
    ∧ (rlRun 1 2 [.read 0, .read 1, .write 0, .write 1]).store = 1 := by
  decide

/-- C3: the guardrail filter retains exactly the entries whose claimed
identifier is in the whitelist, in their original relative order, drops
the others silently (the step is a total function), and every surviving
entry carries a whitelisted identifier; the same holds for the
`suggest_career_paths` filter; on the spec's example `[X1, X2, X3]`
against `{X1, X3}` it keeps exactly the `X1` and `X3` entries in order. -/
theorem guardrail_filter_whitelist (validCodes : List (List Char))
    (kvs : List (List Char × Json)) (m : Json) (ms : List Json)
    (hm : pyDictGet kvs "matches".toList = some (.arr (m :: ms))) :
    interpretFilterStep validCodes (.obj kvs)
      = .obj (dictSet kvs "matches".toList
          (.arr ((m :: ms).filter (codeAllowed validCodes "code".toList))))
    ∧ (∀ e, e ∈ (m :: ms).filter (codeAllowed validCodes "code".toList)
          ↔ e ∈ m :: ms ∧ codeAllowed validCodes "code".toList e = true)
    ∧ ((m :: ms).filter (codeAllowed validCodes "code".toList)).Sublist (m :: ms)
    ∧ (∀ e ∈ (m :: ms).filter (codeAllowed validCodes "code".toList),
          ∃ c, entryCode "code".toList e = some c ∧ c ∈ validCodes)
    ∧ (∀ (kvs' : List (List Char × Json)) (ps : List Json),
          pyDictGet kvs' "paths".toList = some (.arr ps) →
          careerFilterStep validCodes (.obj kvs')
            = .obj (dictSet kvs' "paths".toList
                (.arr (ps.filter (codeAllowed validCodes "occupation_code".toList)))))
    ∧ interpretFilterStep exWhitelist (.obj [("matches".toList, .arr [exEntryX1, exEntryX2, exEntryX3])])
        = .obj [("matches".toList, .arr [exEntryX1, exEntryX3])] := by
  refine ⟨?_, ?_, List.filter_sublist _, ?_, ?_, ?_⟩
  · simp only [interpretFilterStep, hm]
  · intro e
    exact List.mem_filter
  · intro e he
    have h := (List.mem_filter.mp he).2
    unfold codeAllowed at h
    rcases hec : entryCode "code".toList e with _ | c
    · rw [hec] at h; cases h
    · rw [hec] at h
      exact ⟨c, rfl, by simpa using h⟩
  · intro kvs' ps hp
    simp only [careerFilterStep, hp]
  · rfl

/-- Witness for C3 at the spec's example payload. -/
theorem guardrail_filter_whitelist_witness :
    interpretFilterStep exWhitelist
        (.obj [("matches".toList, .arr [exEntryX1, exEntryX2, exEntryX3])])
      = .obj (dictSet [("matches".toList, .arr [exEntryX1, exEntryX2, exEntryX3])]
          "matches".toList
          (.arr ([exEntryX1, exEntryX2, exEntryX3].filter
            (codeAllowed exWhitelist "code".toList)))) :=
  (guardrail_filter_whitelist exWhitelist
    [("matches".toList, .arr [exEntryX1, exEntryX2, exEntryX3])]
    exEntryX1 [exEntryX2, exEntryX3] rfl).1

/-- C4: a persisted usage row stores, as its input field, exactly the
SHA-256 hex digest of the input text; the digest has the fixed length 64;
identical input texts give identical stored hashes; and the whole row
depends on the input text only through its hash (the raw text appears in
no field). -/
theorem usage_record_privacy (user : Option Nat) (ty text : List Char)
    (ti tout : Nat) (model : List Char) :
    (log_interaction user ty text ti tout model).input_hash = hash_input text
    ∧ (hash_input text).length = 64
    ∧ (∀ t₁ t₂ : List Char, t₁ = t₂ → hash_input t₁ = hash_input t₂)
    ∧ (∀ t₁ t₂ : List Char, hash_input t₁ = hash_input t₂ →
        log_interaction user ty t₁ ti tout model
          = log_interaction user ty t₂ ti tout model) := by
  refine ⟨rfl, ?_, fun t₁ t₂ h => by rw [h], fun t₁ t₂ h => ?_⟩
  · simp [hash_input, sha256Hexdigest, hex32]
  · simp [log_interaction, h]

/-- Witness for C4: concrete row, and the hash hypothesis discharged at
equal texts. -/
theorem usage_record_privacy_witness :
    (log_interaction (some 1) "title_interpretation".toList "abc".toList
        10 20 "m".toList).input_hash = hash_input "abc".toList
    ∧ log_interaction (some 1) "title_interpretation".toList "abc".toList
        10 20 "m".toList
      = log_interaction (some 1) "title_interpretation".toList "abc".toList
        10 20 "m".toList :=
  ⟨(usage_record_privacy (some 1) "title_interpretation".toList "abc".toList
      10 20 "m".toList).1,
   (usage_record_privacy (some 1) "title_interpretation".toList "abc".toList
      10 20 "m".toList).2.2.2 "abc".toList "abc".toList rfl⟩

/-- C5: extraction round-trip — the fenced text
```` ```json\n{"a":1}\n``` ```` and the bare text `{"a":1}` both extract
to the mapping `a ↦ 1` (and so does an untagged fence); the extractor
removes exactly one wrapping layer: a leading tagged fence plus trailing
fence around a body that does not itself start a fence is stripped to the
body, and text bearing no fence markers passes through unchanged. -/
theorem chat_json_extraction_roundtrip :
    chatJsonExtract "```json\n\x7b\"a\":1\x7d\n```".toList
      = .ok (.obj [("a".toList, .num "1".toList)])
    ∧ chatJsonExtract "```\n\x7b\"a\":1\x7d\n```".toList
      = .ok (.obj [("a".toList, .num "1".toList)])
    ∧ chatJsonExtract "\x7b\"a\":1\x7d".toList
      = .ok (.obj [("a".toList, .num "1".toList)])
    ∧ (∀ body : List Char,
        "```".toList.isPrefixOf (body ++ "```".toList) = false →
        stripFences ("```json".toList ++ body ++ "```".toList) = body)
    ∧ (∀ t : List Char,
        "```json".toList.isPrefixOf t = false →
        "```".toList.isPrefixOf t = false →
        "```".toList.isSuffixOf t = false →
        stripFences t = t) := by
  refine ⟨rfl, rfl, rfl, ?_, ?_⟩
  · intro body h
    have h7 : "```json".toList.isPrefixOf
        ("```json".toList ++ body ++ "```".toList) = true := by
      rw [List.isPrefixOf_iff_prefix, List.append_assoc]
      exact List.prefix_append _ _
    have hsuf : "```".toList.isSuffixOf (body ++ "```".toList) = true := by
      rw [List.isSuffixOf_iff_suffix]
      exact List.suffix_append _ _
    have hdrop : ("```json".toList ++ body ++ "```".toList).drop 7
        = body ++ "```".toList := by
      rw [List.append_assoc]
      rfl
    unfold stripFences
    rw [h7]
    simp only [if_true, hdrop, h]
    simp only [Bool.false_eq_true, if_false, hsuf, if_true]
    have hlen : (body ++ "```".toList).length - 3 = body.length := by
      simp
    rw [hlen]
    exact List.take_left' rfl
  · intro t h1 h2 h3
    unfold stripFences
    simp only [h1, h2, h3, Bool.false_eq_true, if_false]

/-- Witness for C5: the general strip lemmas applied at the example body
and at unfenced text. -/
theorem chat_json_extraction_roundtrip_witness :
    stripFences ("```json".toList ++ "\n\x7b\"a\":1\x7d\n".toList ++ "```".toList)
        = "\n\x7b\"a\":1\x7d\n".toList
    ∧ stripFences "plain text".toList = "plain text".toList :=
  ⟨chat_json_extraction_roundtrip.2.2.2.1 "\n\x7b\"a\":1\x7d\n".toList (by decide),
   chat_json_extraction_roundtrip.2.2.2.2 "plain text".toList
     (by decide) (by decide) (by decide)⟩

/-- C6: when the fence-stripped text does not parse as JSON, extraction
fails — it never returns a payload — and the error context carries
exactly the first 500 characters of the offending (unfenced) text, so at
most 500 characters are ever reported. -/
theorem chat_json_malformed (raw : List Char)
    (h : jsonLoads (pyStrip (stripFences (pyStrip raw))) = none) :
    chatJsonExtract raw = .error ((stripFences (pyStrip raw)).take 500)
    ∧ ((stripFences (pyStrip raw)).take 500).length ≤ 500
    ∧ ∀ j, chatJsonExtract raw ≠ .ok j := by
  have hres : chatJsonExtract raw = .error ((stripFences (pyStrip raw)).take 500) := by
    simp only [chatJsonExtract, h]
  refine ⟨hres, ?_, fun j hj => ?_⟩
  · simp [List.length_take]
  · rw [hres] at hj
    cases hj

/-- Witness for C6 at the spec's example `not json at all`. -/
theorem chat_json_malformed_witness :
    chatJsonExtract "not json at all".toList
      = .error ((stripFences (pyStrip "not json at all".toList)).take 500) :=
  (chat_json_malformed "not json at all".toList (by rfl)).1

/-- C7 is false of the source: `log_interaction` wraps its
`AIInteractionLog.objects.create` call in no try/except, and the
surrounding `except Exception` in `interpret_job_title` re-raises, so a
persistence failure during usage recording propagates to the caller even
though the model call succeeded (the claim says it is always swallowed). -/
theorem log_failure_propagates :
    interpret_job_title_run (.ok (.obj [], 1, 2)) (.error "db write failed".toList)
        (some 7) []
      = .error "db write failed".toList
    ∧ interpret_job_title_run (.ok (.obj [], 1, 2)) (.ok ()) (some 7) []
      = .ok (interpretFilterStep [] (.obj [])) :=
  ⟨rfl, rfl⟩

/-- C8: a gateway invocation the rate limiter denies short-circuits: the
trace is just the limit check — no model call, no usage record.
Moreover in every trace a usage record can only appear after the model
call: whenever `record` occurs, the trace starts `limitCheck, modelCall`
and `record` occurs strictly later. -/
theorem denied_short_circuits (limit window current : Nat) (ttl : Option Nat)
    (user : Option Nat) (chatOk : Bool) :
    ((gatewayRun limit window current ttl user chatOk).1 = false →
      (gatewayRun limit window current ttl user chatOk).2 = [GEvent.limitCheck]
      ∧ GEvent.modelCall ∉ (gatewayRun limit window current ttl user chatOk).2
      ∧ GEvent.record ∉ (gatewayRun limit window current ttl user chatOk).2)
    ∧ (GEvent.record ∈ (gatewayRun limit window current ttl user chatOk).2 →
        (gatewayRun limit window current ttl user chatOk).2.take 2
          = [GEvent.limitCheck, GEvent.modelCall]
        ∧ GEvent.record ∈ (gatewayRun limit window current ttl user chatOk).2.drop 2) := by
  by_cases hA : (checkRateLimitStep limit window ttl current).1.1
  · constructor
    · intro hfalse
      exfalso
      unfold gatewayRun at hfalse
      rw [if_pos hA] at hfalse
      cases hfalse
    · intro hrec
      unfold gatewayRun at hrec ⊢
      rw [if_pos hA] at hrec ⊢
      cases user <;> cases chatOk
      · simp [viewEvents] at hrec
      · simp [viewEvents] at hrec
      · simp [viewEvents] at hrec
      · exact ⟨rfl, by simp [viewEvents]⟩
  · have hres : gatewayRun limit window current ttl user chatOk
        = (false, [GEvent.limitCheck]) := by
      unfold gatewayRun
      rw [if_neg hA]
    rw [hres]
    exact ⟨fun _ => ⟨rfl, by decide, by decide⟩, by decide⟩

/-- Witness for C8: a denied call (counter at the limit) and an admitted
authenticated call. -/
theorem denied_short_circuits_witness :
    (gatewayRun 1 60 1 none none true).2 = [GEvent.limitCheck]
    ∧ (gatewayRun 5 60 0 none (some 3) true).2.take 2
        = [GEvent.limitCheck, GEvent.modelCall] :=
  ⟨((denied_short_circuits 1 60 1 none none true).1 rfl).1,
   ((denied_short_circuits 5 60 0 none (some 3) true).2 (by decide)).1⟩

/-- C9: a `check_rate_limit` call with an endpoint type absent from
`RATE_LIMITS` uses the default configuration (limit 30, window 60) —
its first call in a window is admitted with `remaining = 29` rather than
erroring or denying — and the unknown endpoint name still appears in the
counter key, so two different endpoint types never share a counter for
the same client address. -/
theorem unknown_endpoint_uses_default (ep : List Char)
    (h : RATE_LIMITS.lookup ep = none) :
    ratelimitConfig ep = ⟨30, 60⟩
    ∧ (checkRateLimitStep (ratelimitConfig ep).limit (ratelimitConfig ep).window
        none 0).1 = (true, 29, 60)
    ∧ (∀ ep' ip : List Char, ep ≠ ep' →
        rateLimitKeyIp ep ip ≠ rateLimitKeyIp ep' ip) := by
  have hcfg : ratelimitConfig ep = ⟨30, 60⟩ := by
    unfold ratelimitConfig
    rw [h]
    rfl
  refine ⟨hcfg, ?_, ?_⟩
  · rw [hcfg]
    rfl
  · intro ep' ip hne heq
    unfold rateLimitKeyIp at heq
    exact hne (List.append_cancel_left
      (List.append_cancel_right (List.append_cancel_right heq)))

/-- Witness for C9 at the unknown endpoint type `ai_custom`. -/
theorem unknown_endpoint_uses_default_witness :
    ratelimitConfig "ai_custom".toList = ⟨30, 60⟩
    ∧ rateLimitKeyIp "ai_custom".toList "1.2.3.4".toList
        ≠ rateLimitKeyIp "ai_other".toList "1.2.3.4".toList :=
  ⟨(unknown_endpoint_uses_default "ai_custom".toList (by decide)).1,
   (unknown_endpoint_uses_default "ai_custom".toList (by decide)).2.2
     "ai_other".toList "1.2.3.4".toList (by decide)⟩

/-- C10: `suggest_career_paths` logs with `input_text = prompt[:500]`, so
the stored audit hash is the SHA-256 digest of the truncated prompt, and
any two prompts agreeing on their first 500 characters produce identical
stored hashes. -/
theorem career_paths_truncated_hash (user : Option Nat) (prompt : List Char)
    (ti tout : Nat) (model : List Char) :
    suggest_career_paths_log user prompt ti tout model
      = log_interaction user "career_paths".toList (prompt.take 500) ti tout model
    ∧ (suggest_career_paths_log user prompt ti tout model).input_hash
        = hash_input (prompt.take 500)
    ∧ (∀ p q : List Char, p.take 500 = q.take 500 →
        (suggest_career_paths_log user p ti tout model).input_hash
          = (suggest_career_paths_log user q ti tout model).input_hash) := by
  refine ⟨rfl, rfl, fun p q h => ?_⟩
  simp [suggest_career_paths_log, log_interaction, h]

/-- Witness for C10: two prompts that differ only after character 500. -/
theorem career_paths_truncated_hash_witness :
    (suggest_career_paths_log (some 1) (List.replicate 500 'a' ++ ['b']) 10 20
        "m".toList).input_hash
      = (suggest_career_paths_log (some 1) (List.replicate 500 'a' ++ ['c']) 10 20
        "m".toList).input_hash :=
  (career_paths_truncated_hash (some 1) (List.replicate 500 'a' ++ ['b']) 10 20
      "m".toList).2.2
    (List.replicate 500 'a' ++ ['b']) (List.replicate 500 'a' ++ ['c'])
    (by
      have hb := @List.take_left' Char (List.replicate 500 'a') ['b'] 500
        (List.length_replicate 500 'a')
      have hc := @List.take_left' Char (List.replicate 500 'a') ['c'] 500
        (List.length_replicate 500 'a')
      rw [hb, hc])

end CubicleAlly
